import Mathlib

/-!
Shallow embedding of the `time-series-rag-agent` trading bot, together with
theorems checking its natural-language specification against the code.

Times are Unix seconds modelled as `ℤ` (Go `int64`).  Prices and quantities
are Go `float64`; they are modelled as `ℚ` where the code only performs
field operations and comparisons, and as `ℝ` where the code applies
`math.Log` / `math.Sqrt` (the feature-engine embedding pipeline).
-/

set_option maxHeartbeats 1000000

namespace TsRag

/-- The constant `PlanckConstant = 6.62607015e-34` from
`internal/ai/slope_return_zscore_calculation.go`, used by the feature
engine as a tiny positive additive guard. -/
noncomputable def PlanckConstant : ℝ := 6.62607015e-34

/-- A candle, Go struct `ai.InputData` (`Time int64; Open, High, Low, Close
float64`). -/
structure InputData where
  Time : ℤ
  Open : ℚ
  High : ℚ
  Low : ℚ
  Close : ℚ
deriving DecidableEq

/-- Junk candle used as the default of `List.getD`; Go indexing at the
places we model is only reached with indices in range, where the default
never surfaces. -/
def dfltCandle : InputData := ⟨0, 0, 0, 0, 0⟩

/-- The distinct failure modes of `SafeMerge` (`main.go`).  The Go code
returns `error` values built with `fmt.Errorf`; we keep them as structured
constructors.  `indexOutOfRange` models the runtime panic Go would raise at
`neededHistory[len(neededHistory)-1]` when `reqWindow = 0` (empty slice). -/
inductive MergeError where
  | insufficientHistory (need got : ℕ)
  | gap (histEnd live diff expected : ℤ)
  | indexOutOfRange
deriving DecidableEq

/-- `SafeMerge` from `main.go`: deduplicates the REST history against the
live websocket candle and checks continuity at the seam.

Go source, step by step:
* Step A keeps exactly the history candles with `h.Time < live.Time`;
* Step B errors when fewer than `reqWindow` remain;
* Step C slices the last `reqWindow` of them;
* Step D errors when `live.Time - lastHist.Time ≠ intervalSecs`;
* Step E returns `append(neededHistory, live)`. -/
def SafeMerge (history : List InputData) (live : InputData)
    (reqWindow : ℕ) (intervalSecs : ℤ) : Except MergeError (List InputData) :=
  let cleanHistory := history.filter (fun h => h.Time < live.Time)
  if cleanHistory.length < reqWindow then
    .error (.insufficientHistory reqWindow cleanHistory.length)
  else
    let neededHistory := cleanHistory.drop (cleanHistory.length - reqWindow)
    match neededHistory.getLast? with
    | none => .error .indexOutOfRange
    | some lastHist =>
      if live.Time - lastHist.Time ≠ intervalSecs then
        .error (.gap lastHist.Time live.Time (live.Time - lastHist.Time) intervalSecs)
      else
        .ok (neededHistory ++ [live])

/-- The behaviour claimed for `SafeMerge` (claim C1), phrased over the code's
own intermediate values: `clean` is the filtered history and `needed` its
last-`W` suffix. -/
def SafeMergeClaim (history : List InputData) (live : InputData)
    (W : ℕ) (s : ℤ) : Prop :=
  let clean := history.filter (fun h => h.Time < live.Time)
  (clean.length < W →
    SafeMerge history live W s = .error (.insufficientHistory W clean.length)) ∧
  (W ≤ clean.length →
    let needed := clean.drop (clean.length - W)
    needed.length = W ∧
    clean.take (clean.length - W) ++ needed = clean ∧
    (∀ c ∈ needed, c ∈ history ∧ c.Time < live.Time) ∧
    ∃ lastHist, needed.getLast? = some lastHist ∧
      (live.Time - lastHist.Time ≠ s →
        SafeMerge history live W s =
          .error (.gap lastHist.Time live.Time (live.Time - lastHist.Time) s)) ∧
      (live.Time - lastHist.Time = s →
        SafeMerge history live W s = .ok (needed ++ [live]) ∧
        (needed ++ [live]).length = W + 1 ∧
        (needed ++ [live]).getLast? = some live))

/-- History with an internal hole (times 60, 180, 240: the step from 60 to
180 is 120 s, not 60 s) that `SafeMerge` still accepts. -/
def holeHistory : List InputData :=
  [⟨60, 0, 0, 0, 0⟩, ⟨180, 0, 0, 0, 0⟩, ⟨240, 0, 0, 0, 0⟩]

/-- The live candle at time 300 following `holeHistory`. -/
def holeLive : InputData := ⟨300, 0, 0, 0, 0⟩

/-! ## Feature engine (`internal/ai/slope_return_zscore_calculation.go`)

The first chunk of that file is not legal Go (it fails to compile: the
log-return loop reads `for i = 1; len(closes); i++` and writes to
`res[-1]`, the z-score loop is written with Python's `for _, v in range
data` and shadows its accumulator, the slope function refers to the
undeclared identifiers `price` and `tartval`).  The definitions below
render each function as closely as that source allows, keeping every
semantic slip that survives a purely syntactic repair (which identifier
was meant is taken from the surrounding code): the log-return per-step
value stays `prev - curr`, the z-score standard deviation keeps only the
last iteration's shadowed value, and the slope accumulates `x + yNorm`
exactly as written. -/

/-- The per-step values of the `CalculateLogReturn` loop: for each adjacent
pair the Go body computes `prev - curr` with
`curr = math.Log(closes[i] + PlanckConstant)` and
`prev = math.Log(closes[i-1] + PlanckConstant)`; the write target `res[-1]`
is rendered as slot `i-1`. -/
noncomputable def logReturnSteps : List ℝ → List ℝ
  | prev :: curr :: rest =>
    (Real.log (prev + PlanckConstant) - Real.log (curr + PlanckConstant)) ::
      logReturnSteps (curr :: rest)
  | _ => []

/-- `CalculateLogReturn` as in the source: empty for fewer than two closes,
otherwise the loop above. -/
noncomputable def CalculateLogReturn (closes : List ℝ) : List ℝ :=
  if closes.length < 2 then [] else logReturnSteps closes

/-- `CalculateZScore` as in the source.  The mean is `sum / len`.  The
standard-deviation loop re-declares `sqDiffSum` and `std` with `:=` on
every iteration, so no sum is accumulated and the value reaching the use
site is the one computed from the final element alone:
`sqrt((last - mean)^2 / len)`; the fold below ignores its accumulator to
mirror that shadowing. -/
noncomputable def CalculateZScore (data : List ℝ) : List ℝ :=
  if data.length = 0 then [] else
  let mean := data.sum / (data.length : ℝ)
  let std := data.foldl
    (fun _ v => Real.sqrt ((v - mean) ^ 2 / (data.length : ℝ))) 0
  data.map (fun v => (v - mean) / (std + PlanckConstant))

/-- The accumulation loop of `CalculateSlope` (`for i, price := range
prices`), threading the running index `x` and returning
`(sumX, sumY, sumXY, sumX2)`.  The source line `sumXY += x + yNorm` adds
`x + yNorm` (not `x * yNorm`), and that is kept. -/
def slopeSums (startVal : ℚ) : ℚ → List ℚ → ℚ × ℚ × ℚ × ℚ
  | _, [] => (0, 0, 0, 0)
  | x, price :: rest =>
    let yNorm := (price - startVal) / startVal
    let s := slopeSums startVal (x + 1) rest
    (s.1 + x, s.2.1 + yNorm, s.2.2.1 + (x + yNorm), s.2.2.2 + x * x)

/-- `CalculateSlope` as in the source: 0 for fewer than two prices,
otherwise `(n * sumXY - sumX * sumY) / (n * sumX2 - sumX^2)` over the
sums above, with `startVal` replaced by `1e-9` when `prices[0] = 0`
(the source line `tartval = 1e-9` read as assigning the declared
`startVal`) and 0 when the denominator vanishes. -/
def CalculateSlope (prices : List ℚ) : ℚ :=
  let n : ℚ := (prices.length : ℚ)
  if prices.length < 2 then 0 else
  let startVal0 := prices.getD 0 0
  let startVal : ℚ := if startVal0 = 0 then 1e-9 else startVal0
  let s := slopeSums startVal 0 prices
  let numerator := n * s.2.2.1 - s.1 * s.2.1
  let denominator := n * s.2.2.2 - s.1 * s.1
  if denominator = 0 then 0 else numerator / denominator

/-- Go struct `ai.PatternAI`. -/
structure PatternAI where
  Symbol : String
  Interval : String
  Model : String
  VectorWindow : ℕ

/-- Go constructor `ai.NewPatternAI`. -/
def NewPatternAI (Symbol Interval Model : String) (VectorWindow : ℕ) :
    PatternAI :=
  { Symbol := Symbol, Interval := Interval, Model := Model,
    VectorWindow := VectorWindow }

/-- Go struct `ai.PatternFeature`.  Its Go `Time` field is
`time.Unix(lastCandle.Time, 0)`; we keep the Unix seconds themselves, so
Go's later `feature.Time.Unix()` is the identity here. -/
structure PatternFeature where
  Time : ℤ
  Symbol : String
  Interval : String
  ClosePrice : ℚ
  Embedding : List ℝ

/-- `(*PatternAI) CalculateFeatures`: `nil` when fewer than
`VectorWindow + 1` candles, otherwise the feature of the last
`VectorWindow + 1` candles, whose embedding is
`CalculateZScore(CalculateLogReturn(closes))` and whose metadata comes
from the last candle. -/
noncomputable def PatternAI.CalculateFeatures (p : PatternAI)
    (history : List InputData) : Option PatternFeature :=
  let reqLen := p.VectorWindow + 1
  if history.length < reqLen then none else
  let window := history.drop (history.length - reqLen)
  let closes := window.map (fun d => d.Close)
  let embedding := CalculateZScore (CalculateLogReturn
    (closes.map (fun c => (c : ℝ))))
  let lastCandle := window.getD (window.length - 1) dfltCandle
  some { Time := lastCandle.Time, Symbol := p.Symbol, Interval := p.Interval,
         Embedding := embedding, ClosePrice := lastCandle.Close }

/-- Go struct `ai.LabelUpdate`. -/
structure LabelUpdate where
  TargetTime : ℤ
  Column : String
  Value : ℚ
deriving DecidableEq

/-- `(*PatternAI) CalculateLabels`: label updates for past candles from a
history whose last element is the current candle.  `next_return` targets
index `n-2` (guarded by `prevClose != 0`), `next_slope_3` targets `n-4`
over the three last closes, `next_slope_5` targets `n-6` over the five
last closes; lists are appended in that order. -/
def PatternAI.CalculateLabels (_p : PatternAI) (history : List InputData) :
    List LabelUpdate :=
  let n := history.length
  if n < 2 then [] else
  let prevClose := (history.getD (n - 2) dfltCandle).Close
  let currClose := (history.getD (n - 1) dfltCandle).Close
  let a : List LabelUpdate :=
    if prevClose ≠ 0 then
      [⟨(history.getD (n - 2) dfltCandle).Time, "next_return",
        (currClose - prevClose) / prevClose⟩]
    else []
  let b : List LabelUpdate :=
    if 4 ≤ n then
      [⟨(history.getD (n - 4) dfltCandle).Time, "next_slope_3",
        CalculateSlope [(history.getD (n - 3) dfltCandle).Close,
                        (history.getD (n - 2) dfltCandle).Close,
                        (history.getD (n - 1) dfltCandle).Close]⟩]
    else []
  let c : List LabelUpdate :=
    if 6 ≤ n then
      [⟨(history.getD (n - 6) dfltCandle).Time, "next_slope_5",
        CalculateSlope ((List.range' (n - 5) 5).map
          (fun j => (history.getD j dfltCandle).Close))⟩]
    else []
  a ++ b ++ c

/-- Go struct `ai.BulkResult`. -/
structure BulkResult where
  Features : PatternFeature
  Labels : List LabelUpdate

/-- One iteration of the `CalculateBulkData` loop at index `i`: the
feature of the window `fullHistory[i-VectorWindow : i+1]` (skipping the
row when it is `nil`) and the forward-looking labels for row `i`. -/
noncomputable def bulkRow (p : PatternAI) (fullHistory : List InputData)
    (i : ℕ) : Option BulkResult :=
  let windowStart := i - p.VectorWindow
  let currentSlice := (fullHistory.drop windowStart).take (i + 1 - windowStart)
  match p.CalculateFeatures currentSlice with
  | none => none
  | some feature =>
    let labels : List LabelUpdate :=
      (if i + 1 < fullHistory.length then
        (if (fullHistory.getD i dfltCandle).Close ≠ 0 then
          [⟨feature.Time, "next_return",
            ((fullHistory.getD (i + 1) dfltCandle).Close -
              (fullHistory.getD i dfltCandle).Close) /
              (fullHistory.getD i dfltCandle).Close⟩]
         else [])
       else [])
      ++ (if i + 3 < fullHistory.length then
            [⟨feature.Time, "next_slope_3",
              CalculateSlope ((List.range' 1 3).map
                (fun k => (fullHistory.getD (i + k) dfltCandle).Close))⟩]
          else [])
      ++ (if i + 5 < fullHistory.length then
            [⟨feature.Time, "next_slope_5",
              CalculateSlope ((List.range' 1 5).map
                (fun k => (fullHistory.getD (i + k) dfltCandle).Close))⟩]
          else [])
    some ⟨feature, labels⟩

/-- `(*PatternAI) CalculateBulkData`: the loop
`for i := VectorWindow; i < len(fullHistory); i++` appending `bulkRow`
results (and skipping `nil` features). -/
noncomputable def PatternAI.CalculateBulkData (p : PatternAI)
    (fullHistory : List InputData) : List BulkResult :=
  (List.range' p.VectorWindow (fullHistory.length - p.VectorWindow)).filterMap
    (bulkRow p fullHistory)

/-- First label update with the given column, mirroring how a single
column's value is read off a `[]LabelUpdate` (each column occurs at most
once per call). -/
def findLabel (updates : List LabelUpdate) (col : String) : Option LabelUpdate :=
  updates.find? (fun u => u.Column = col)

/-! ## Trade executor (`internal/trade/executor.go`) -/

/-- Go struct `trade.Executor` (the client and logger are elided; API
results are supplied through `ExecEnv`). -/
structure Executor where
  Symbol : String
  AviableTradeRatio : ℚ
  Leverage : ℤ
  SLPercentage : ℚ
  TPPercentage : ℚ

/-- One row of the Binance position-risk response: symbol and the parsed
signed `positionAmt`. -/
structure PositionRisk where
  Symbol : String
  PositionAmt : ℚ
deriving DecidableEq

/-- `(*Executor) HasOpenPosition` over the fetched position list: the
first entry for the executor's symbol yields `(true, "LONG", amt)` when
`amt > 0`, `(true, "SHORT", amt)` when `amt < 0`, and `(false, "HOLD", 0)`
otherwise (also when no entry matches).  The API-error arm is modelled at
the call site. -/
def Executor.HasOpenPosition (e : Executor) (positions : List PositionRisk) :
    Bool × String × ℚ :=
  match positions.find? (fun p => p.Symbol = e.Symbol) with
  | some p =>
    if 0 < p.PositionAmt then (true, "LONG", p.PositionAmt)
    else if p.PositionAmt < 0 then (true, "SHORT", p.PositionAmt)
    else (false, "HOLD", 0)
  | none => (false, "HOLD", 0)

/-- `(*Executor) CalculateSL`: price moved against the entry by
`SLPercentage / Leverage`; `0.0` for any side other than `"SHORT"` and
`"LONG"`. -/
def Executor.CalculateSL (e : Executor) (price : ℚ) (side : String) : ℚ :=
  let priceMovement := e.SLPercentage / (e.Leverage : ℚ)
  if side = "SHORT" then price * (1 + priceMovement)
  else if side = "LONG" then price * (1 - priceMovement)
  else 0

/-- `(*Executor) CalculateTP`: price moved with the entry by
`TPPercentage / Leverage`; `0.0` for any side other than `"SHORT"` and
`"LONG"`. -/
def Executor.CalculateTP (e : Executor) (price : ℚ) (side : String) : ℚ :=
  let priceMovement := e.TPPercentage / (e.Leverage : ℚ)
  if side = "SHORT" then price * (1 - priceMovement)
  else if side = "LONG" then price * (1 + priceMovement)
  else 0

/-- `(*Executor) adjustQuantity`, numeric part: floor the raw quantity to
the nearest multiple of the LOT_SIZE step (`math.Floor(rawQty/stepSize) *
stepSize`).  The final `fmt.Sprintf` to `quantityPrecision` decimals is
presentational and not modelled. -/
def adjustQuantity (rawQty stepSize : ℚ) : ℚ :=
  (⌊rawQty / stepSize⌋ : ℚ) * stepSize

/-- `(*Executor) CalculateQuantity`, numeric part: buying power
`balance * AviableTradeRatio * Leverage`, raw quantity
`buyingPower / currentPrice`, then `adjustQuantity`. -/
def Executor.CalculateQuantity (e : Executor)
    (availableBalance currentPrice stepSize : ℚ) : ℚ :=
  let usdtToTrade := availableBalance * e.AviableTradeRatio * (e.Leverage : ℚ)
  let rawQty := usdtToTrade / currentPrice
  adjustQuantity rawQty stepSize

/-- The orders `PlaceTrade` can send to the exchange. -/
inductive OrderAction where
  | entry
  | stopLoss
  | takeProfit
deriving DecidableEq

/-- The outcomes of the exchange calls `PlaceTrade` makes, in source
order.  Each field is the result the Binance API returns for that call. -/
structure ExecEnv where
  cancelOpen : Except String Unit
  cancelAlgo : Except String Unit
  waitBalance : Except String ℚ
  quantity : Except String String
  formatSL : Except String String
  formatTP : Except String String
  entryOrder : Except String ℤ
  slOrder : Except String Unit
  tpOrder : Except String Unit

/-- `(*Executor) PlaceTrade`: returns the Go error (or success) and the
list of orders whose placement was attempted.

Source flow: the two cancel calls and `WaitForBalanceRelease` log failures
and continue; the error of `CalculateQuantity` is captured but never
checked (the next `:=` shadows it), so on failure the zero-value quantity
string is used; a failing `FormatPrice` for SL or TP returns before any
order; a failing entry (limit) order returns before the protective
orders; failures of the stop-loss and take-profit algo orders are only
logged and the function still returns `nil`. -/
def Executor.PlaceTrade (e : Executor) (env : ExecEnv) (side : String)
    (priceToPlace : ℚ) : Except String Unit × List OrderAction :=
  let _slPrice := e.CalculateSL priceToPlace side
  let _tpPrice := e.CalculateTP priceToPlace side
  let _quantity : String := match env.quantity with
    | .ok q => q
    | .error _ => ""
  match env.formatSL with
  | .error msg => (.error ("failed to format SL price: " ++ msg), [])
  | .ok _ =>
    match env.formatTP with
    | .error msg => (.error ("failed to format TP price: " ++ msg), [])
    | .ok _ =>
      match env.entryOrder with
      | .error msg => (.error ("limit order failed: " ++ msg), [.entry])
      | .ok _ => (.ok (), [.entry, .stopLoss, .takeProfit])

/-! ## Decision cycle (`main.go` websocket handler) -/

/-- `const Symbol = "ETHUSDT"` from `main.go`. -/
def Symbol : String := "ETHUSDT"

/-- `const Interval = "15m"` from `main.go`. -/
def Interval : String := "15m"

/-- `const IntervalSecs = 60 * 15` from `main.go`. -/
def IntervalSecs : ℤ := 60 * 15

/-- `const VectorWindow = 60` from `main.go`. -/
def VectorWindow : ℕ := 60

/-- `const signalConfidence = 30` from `main.go`. -/
def signalConfidence : ℤ := 30

/-- The decision-relevant part of the LLM response `llm.TradeSignal`. -/
structure TradeSignal where
  Signal : String
  Confidence : ℤ

/-- The observable side effects of one websocket candle-close cycle. -/
inductive Effect where
  | ingest
  | search
  | plotCharts
  | notify
  | placeTrade (side : String)
  | pushLog
deriving DecidableEq

/-- The environment of one `wsHandler` invocation: the event flag, the
live candle, and the results each external call would return. -/
structure WsEnv where
  isFinal : Bool
  liveCandle : InputData
  history : Except String (List InputData)
  positions : Except String (List PositionRisk)
  searchMatches : List Unit
  prompt : Except String Unit
  signal : Except String TradeSignal
  closeParse : Option ℚ

/-- The `wsHandler` closure from `main.go` as the list of effects one
cycle performs.  Source flow: return unless the candle is final; fetch
history (error → return); `SafeMerge` (error → return);
`CalculateFeatures` (`nil` → return); start ingestion;
`HasOpenPosition` (API error → return, open position → return);
`SearchPatterns`; when matches exist: plot, build the prompt (error →
return), notify, ask the LLM (error → return), and place a trade exactly
when the confidence clears the gate and the signal is `"SHORT"` or
`"LONG"`; then push the log and notify. -/
noncomputable def wsHandler (agent : PatternAI) (e : Executor)
    (env : WsEnv) : List Effect :=
  if !env.isFinal then [] else
  match env.history with
  | .error _ => []
  | .ok history =>
    match SafeMerge history env.liveCandle VectorWindow IntervalSecs with
    | .error _ => []
    | .ok cleanWindow =>
      match agent.CalculateFeatures cleanWindow with
      | none => []
      | some _feature =>
        Effect.ingest ::
        (match env.positions with
         | .error _ => []
         | .ok positions =>
           let hasPos := (e.HasOpenPosition positions).1
           if hasPos then []
           else
             Effect.search ::
             (if 0 < env.searchMatches.length then
               Effect.plotCharts ::
               (match env.prompt with
                | .error _ => []
                | .ok _ =>
                  Effect.notify ::
                  (match env.signal with
                   | .error _ => []
                   | .ok signal =>
                     (if signalConfidence ≤ signal.Confidence then
                       (if signal.Signal = "SHORT" ∨ signal.Signal = "LONG" then
                         [Effect.placeTrade signal.Signal]
                        else [])
                      else []) ++ [Effect.pushLog, Effect.notify]))
              else []))

/-! ## Concrete fixtures used by the witness theorems -/

/-- A concrete executor: ETHUSDT, 90 % trade ratio, 5x leverage, 5 % SL,
10 % TP. -/
def execW : Executor := ⟨"ETHUSDT", 9/10, 5, 5/100, 1/10⟩

/-- An executor with ratio and leverage 1, so that the raw quantity equals
`balance / price`. -/
def execUnit : Executor := ⟨"ETHUSDT", 1, 1, 5/100, 1/10⟩

/-- Exchange-call outcomes where both price formats succeed and the entry
order fails. -/
def envEntryFail : ExecEnv :=
  ⟨.ok (), .ok (), .ok 100, .ok "0.13", .ok "95", .ok "105",
   .error "boom", .ok (), .ok ()⟩

/-- Exchange-call outcomes where the entry succeeds and both protective
orders fail. -/
def envProtectiveFail : ExecEnv :=
  ⟨.ok (), .ok (), .ok 100, .ok "0.13", .ok "95", .ok "105",
   .ok 42, .error "sl down", .error "tp down"⟩

/-- A position list with an open 1-contract LONG on ETHUSDT. -/
def positionsOpen : List PositionRisk := [⟨"ETHUSDT", 1⟩]

/-- The `main.go` agent: `NewPatternAI(Symbol, Interval, "v1",
VectorWindow)`. -/
def agentMain : PatternAI := NewPatternAI Symbol Interval "v1" VectorWindow

/-- A websocket cycle environment whose position check reports the open
position of `positionsOpen`. -/
def wsEnvOpen : WsEnv :=
  ⟨true, holeLive, .error "api down", .ok positionsOpen, [], .ok (),
   .error "no llm", none⟩

/-- A small pattern agent with `VectorWindow = 1`, for exercising the bulk
path on a short history. -/
def agentSmall : PatternAI := NewPatternAI "BTCUSDT" "1m" "test-model" 1

/-- A seven-candle history at one-minute spacing for the bulk/incremental
comparison. -/
def fullW : List InputData :=
  [⟨0, 0, 0, 0, 100⟩, ⟨60, 0, 0, 0, 200⟩, ⟨120, 0, 0, 0, 100⟩,
   ⟨180, 0, 0, 0, 300⟩, ⟨240, 0, 0, 0, 150⟩, ⟨300, 0, 0, 0, 250⟩,
   ⟨360, 0, 0, 0, 120⟩]

/-- C1: `SafeMerge` keeps only strictly older history entries, fails with
the insufficient-history error when fewer than `W` remain, otherwise takes
exactly the last `W` remaining entries, fails with the gap error when the
live candle is not exactly one interval after the last kept entry, and on
success returns those `W` entries followed by the live candle (`W + 1`
entries ending with the live candle). -/
theorem safeMerge_spec (history : List InputData) (live : InputData)
    (W : ℕ) (s : ℤ) (hW : 0 < W) : SafeMergeClaim history live W s := by
  unfold SafeMergeClaim
  set clean := history.filter (fun h => h.Time < live.Time) with hclean
  refine ⟨fun hlt => ?_, fun hge => ?_⟩
  · unfold SafeMerge
    rw [← hclean]
    simp [hlt]
  · set needed := clean.drop (clean.length - W) with hneeded
    have hlen : needed.length = W := by
      rw [hneeded, List.length_drop]
      omega
    have hne : needed ≠ [] := by
      intro h
      rw [h] at hlen
      simp at hlen
      omega
    obtain ⟨lastHist, hlast⟩ := Option.isSome_iff_exists.mp
      (List.getLast?_isSome.mpr hne)
    refine ⟨hlen, List.take_append_drop _ _, fun c hc => ?_, lastHist, hlast,
      fun hdiff => ?_, fun hdiff => ?_⟩
    · have hc' : c ∈ clean := List.mem_of_mem_drop hc
      rw [hclean] at hc'
      simpa using hc'
    · unfold SafeMerge
      rw [← hclean]

      simp only [Nat.not_lt.mpr hge, if_false, ← hneeded, hlast]
      simp [hdiff]
    · unfold SafeMerge
      rw [← hclean]
      simp only [Nat.not_lt.mpr hge, if_false, ← hneeded, hlast]
      simp [hdiff, hlen]

/-- Closed instance of C1: history at times 10, 20, 30, live candle at 40,
window 2, interval 10. -/
theorem safeMerge_spec_witness :
    0 < 2 ∧
    SafeMergeClaim [⟨10, 1, 1, 1, 1⟩, ⟨20, 1, 1, 1, 1⟩, ⟨30, 1, 1, 1, 1⟩]
      ⟨40, 2, 2, 2, 2⟩ 2 10 :=
  ⟨by decide, safeMerge_spec _ _ _ _ (by decide)⟩

/-- C2 fails on the code: `SafeMerge` accepts a window whose interior has a
hole.  With one-minute candles, history times 60, 180, 240 and live candle
time 300, the merge succeeds (the seam gap 300 − 240 = 60 is checked) yet
the returned window is not spaced 60 s throughout (180 − 60 = 120). -/
theorem safeMerge_hole_counterexample :
    SafeMerge holeHistory holeLive 3 60 = .ok (holeHistory ++ [holeLive]) ∧
    ¬ List.Chain' (fun a b => b.Time - a.Time = 60) (holeHistory ++ [holeLive]) := by
  constructor
  · rfl
  · rw [show holeHistory ++ [holeLive] =
      [(⟨60, 0, 0, 0, 0⟩ : InputData), ⟨180, 0, 0, 0, 0⟩,
       ⟨240, 0, 0, 0, 0⟩, ⟨300, 0, 0, 0, 0⟩] from rfl]
    intro hch
    exact absurd (List.chain'_cons.mp hch).1 (by decide)

/-- C2 as amended: on success the returned window ends with the live candle
immediately preceded by the last kept history candle, and only that seam is
guaranteed to be spaced exactly `intervalSecs`. -/
theorem safeMerge_seam_spacing (history : List InputData) (live : InputData)
    (W : ℕ) (s : ℤ) (res : List InputData)
    (h : SafeMerge history live W s = .ok res) :
    ∃ pre lastHist, res = pre ++ [lastHist, live] ∧
      live.Time - lastHist.Time = s := by
  unfold SafeMerge at h
  dsimp only at h
  split_ifs at h with hlen
  generalize hneq :
    (history.filter (fun h => h.Time < live.Time)).drop
      ((history.filter (fun h => h.Time < live.Time)).length - W) = needed at h
  generalize hlast : needed.getLast? = o at h
  match o with
  | none => exact absurd h (by simp)
  | some lastHist =>
    dsimp only at h
    split_ifs at h with hdiff
    simp only [Except.ok.injEq] at h
    obtain ⟨pre, hpre⟩ := List.getLast?_eq_some_iff.mp hlast
    refine ⟨pre, lastHist, ?_, by omega⟩
    rw [← h, hpre, List.append_assoc]
    rfl

/-- Closed instance of the amended C2 at the hole example. -/
theorem safeMerge_seam_spacing_witness :
    ∃ pre lastHist, holeHistory ++ [holeLive] = pre ++ [lastHist, holeLive] ∧
      holeLive.Time - lastHist.Time = 60 :=
  safeMerge_seam_spacing holeHistory holeLive 3 60 _ rfl

theorem planck_pos : 0 < PlanckConstant := by
  unfold PlanckConstant
  norm_num

/-- C10: for every price and every side other than `"LONG"` and
`"SHORT"`, `CalculateSL` and `CalculateTP` both return exactly `0.0`. -/
theorem calculateSLTP_other_side_zero (e : Executor) (price : ℚ)
    (side : String) (h1 : side ≠ "LONG") (h2 : side ≠ "SHORT") :
    e.CalculateSL price side = 0 ∧ e.CalculateTP price side = 0 := by
  unfold Executor.CalculateSL Executor.CalculateTP
  simp [h1, h2]

/-- Closed instance of C10 at side `"HOLD"`. -/
theorem calculateSLTP_other_side_zero_witness :
    ("HOLD" ≠ "LONG") ∧ ("HOLD" ≠ "SHORT") ∧
    execW.CalculateSL 100 "HOLD" = 0 ∧ execW.CalculateTP 100 "HOLD" = 0 :=
  ⟨by decide, by decide,
   (calculateSLTP_other_side_zero execW 100 "HOLD" (by decide) (by decide)).1,
   (calculateSLTP_other_side_zero execW 100 "HOLD" (by decide) (by decide)).2⟩

/-- C7: the sized quantity is
`floor(((balance * ratio * leverage) / price) / step) * step` — downward
quantization — and therefore never exceeds the raw quantity
`(balance * ratio * leverage) / price`. -/
theorem calculateQuantity_floors (e : Executor) (b p q : ℚ)
    (_hp : 0 < p) (hq : 0 < q) :
    e.CalculateQuantity b p q =
      (⌊((b * e.AviableTradeRatio * (e.Leverage : ℚ)) / p) / q⌋ : ℚ) * q ∧
    e.CalculateQuantity b p q ≤
      (b * e.AviableTradeRatio * (e.Leverage : ℚ)) / p := by
  constructor
  · rfl
  · unfold Executor.CalculateQuantity adjustQuantity
    dsimp only
    calc (⌊b * e.AviableTradeRatio * (e.Leverage : ℚ) / p / q⌋ : ℚ) * q
        ≤ (b * e.AviableTradeRatio * (e.Leverage : ℚ) / p / q) * q :=
          mul_le_mul_of_nonneg_right (Int.floor_le _) hq.le
      _ = b * e.AviableTradeRatio * (e.Leverage : ℚ) / p :=
          div_mul_cancel₀ _ hq.ne'

/-- Closed instance of C7: raw quantity `0.1357` with step `0.01` is sent
as `0.13`, never `0.14`. -/
theorem calculateQuantity_floors_witness :
    (0 : ℚ) < 1 ∧ (0 : ℚ) < 1/100 ∧
    execUnit.CalculateQuantity (1357/10000) 1 (1/100) ≤
      ((1357/10000) * execUnit.AviableTradeRatio *
        (execUnit.Leverage : ℚ)) / 1 ∧
    execUnit.CalculateQuantity (1357/10000) 1 (1/100) = 13/100 :=
  ⟨by norm_num, by norm_num,
   (calculateQuantity_floors execUnit (1357/10000) 1 (1/100)
     (by norm_num) (by norm_num)).2,
   by norm_num [Executor.CalculateQuantity, adjustQuantity, execUnit]⟩

/-- C8: once both price formats succeed, a failing entry order makes
`PlaceTrade` return the error without attempting either protective order,
while a successful entry makes it return success with all three orders
attempted — whatever the stop-loss and take-profit outcomes, so a
protective failure never rolls back the entry. -/
theorem placeTrade_entry_protective (e : Executor) (env : ExecEnv)
    (side : String) (price : ℚ) (slS tpS : String)
    (hsl : env.formatSL = .ok slS) (htp : env.formatTP = .ok tpS) :
    (∀ msg, env.entryOrder = .error msg →
      (e.PlaceTrade env side price).1 =
        .error ("limit order failed: " ++ msg) ∧
      OrderAction.stopLoss ∉ (e.PlaceTrade env side price).2 ∧
      OrderAction.takeProfit ∉ (e.PlaceTrade env side price).2) ∧
    (∀ oid, env.entryOrder = .ok oid →
      e.PlaceTrade env side price =
        (.ok (), [.entry, .stopLoss, .takeProfit])) := by
  constructor
  · intro msg hmsg
    have hres : e.PlaceTrade env side price =
        (.error ("limit order failed: " ++ msg), [.entry]) := by
      unfold Executor.PlaceTrade
      rw [hsl, htp, hmsg]
    rw [hres]
    refine ⟨rfl, ?_, ?_⟩ <;> simp
  · intro oid hoid
    unfold Executor.PlaceTrade
    rw [hsl, htp, hoid]

/-- Closed instance of C8: with `envEntryFail` the entry failure aborts
before the protective orders; with `envProtectiveFail` both protective
orders fail yet `PlaceTrade` still reports success. -/
theorem placeTrade_entry_protective_witness :
    envEntryFail.formatSL = .ok "95" ∧
    (execW.PlaceTrade envEntryFail "LONG" 100).1 =
      .error ("limit order failed: " ++ "boom") ∧
    OrderAction.stopLoss ∉ (execW.PlaceTrade envEntryFail "LONG" 100).2 ∧
    execW.PlaceTrade envProtectiveFail "LONG" 100 =
      (.ok (), [.entry, .stopLoss, .takeProfit]) :=
  ⟨rfl,
   ((placeTrade_entry_protective execW envEntryFail "LONG" 100 "95" "105"
      rfl rfl).1 "boom" rfl).1,
   ((placeTrade_entry_protective execW envEntryFail "LONG" 100 "95" "105"
      rfl rfl).1 "boom" rfl).2.1,
   (placeTrade_entry_protective execW envProtectiveFail "LONG" 100 "95" "105"
      rfl rfl).2 42 rfl⟩

/-- C9: whenever the position check returns an open position (first
matching symbol with nonzero signed amount), the websocket cycle performs
no entry order: the only effect after the check is the already-started
ingestion. -/
theorem wsHandler_skip_open_position (agent : PatternAI) (e : Executor)
    (env : WsEnv) (positions : List PositionRisk) (side : String) (amt : ℚ)
    (hps : env.positions = .ok positions)
    (hpos : e.HasOpenPosition positions = (true, side, amt)) :
    ∀ sd, Effect.placeTrade sd ∉ wsHandler agent e env := by
  intro sd hmem
  unfold wsHandler at hmem
  rw [hps] at hmem
  dsimp only at hmem
  rw [hpos] at hmem
  split at hmem
  · simp at hmem
  · split at hmem
    · simp at hmem
    · split at hmem
      · simp at hmem
      · split at hmem
        · simp at hmem
        · simp at hmem

/-- Closed instance of C9: with the 1-contract LONG of `positionsOpen`
showing, the cycle of `wsEnvOpen` places no trade. -/
theorem wsHandler_skip_open_position_witness :
    wsEnvOpen.positions = .ok positionsOpen ∧
    execW.HasOpenPosition positionsOpen = (true, "LONG", 1) ∧
    Effect.placeTrade "LONG" ∉ wsHandler agentMain execW wsEnvOpen :=
  ⟨rfl, by decide,
   wsHandler_skip_open_position agentMain execW wsEnvOpen positionsOpen
     "LONG" 1 rfl (by decide) "LONG"⟩

/-- C3 fails on the code: at `closes = [100, 200, 100]` the function does
not return the claimed values
`[ln(200+ε) − ln(100+ε), ln(100+ε) − ln(200+ε)]`; the loop body computes
`prev − curr`, i.e. each value negated (besides the non-compiling `res[-1]`
write).  The repository's own test expects the claimed (positive-first)
values. -/
theorem calculateLogReturn_code_bug :
    CalculateLogReturn [100, 200, 100] ≠
      [Real.log (200 + PlanckConstant) - Real.log (100 + PlanckConstant),
       Real.log (100 + PlanckConstant) - Real.log (200 + PlanckConstant)] := by
  have hlt : Real.log (100 + PlanckConstant) <
      Real.log (200 + PlanckConstant) := by
    apply Real.log_lt_log
    · have := planck_pos; linarith
    · linarith
  have h0 : CalculateLogReturn [100, 200, 100] =
      [Real.log (100 + PlanckConstant) - Real.log (200 + PlanckConstant),
       Real.log (200 + PlanckConstant) - Real.log (100 + PlanckConstant)] := by
    norm_num [CalculateLogReturn, logReturnSteps]
  rw [h0]
  intro h
  have h1 := (List.cons.injEq _ _ _ _).mp h
  have h2 := h1.1
  linarith

/-- C4 fails on the code: at `data = [0, 2]` the second z-score is not
`(x − mean) / (stddev + ε)`: the shadowed accumulator leaves only the last
element's squared deviation in the "standard deviation", so the code
divides by `sqrt(1/2) + ε` where the claim requires `sqrt(1) + ε`. -/
theorem calculateZScore_code_bug :
    (CalculateZScore [0, 2]).getD 1 0 ≠
      (2 - (0 + 2)/2) /
        (Real.sqrt (((0 - (0 + 2)/2)^2 + (2 - (0 + 2)/2)^2) / 2) +
          PlanckConstant) := by
  have e1 : (CalculateZScore [0, 2]).getD 1 0 =
      1 / (Real.sqrt (1/2) + PlanckConstant) := by
    norm_num [CalculateZScore, List.foldl, List.getD]
  have e2 : (2 - (0 + 2)/2) /
      (Real.sqrt (((0 - (0 + 2)/2)^2 + (2 - (0 + 2)/2)^2) / 2) +
        PlanckConstant) = 1 / (Real.sqrt 1 + PlanckConstant) := by
    norm_num
  rw [e1, e2, Real.sqrt_one]
  have hlt : Real.sqrt (1/2) < 1 := by
    have h := Real.sqrt_lt_sqrt (by norm_num : (0:ℝ) ≤ 1/2)
      (by norm_num : (1:ℝ)/2 < 1)
    simpa using h
  have h1 : 0 < Real.sqrt (1/2) + PlanckConstant :=
    add_pos_of_nonneg_of_pos (Real.sqrt_nonneg _) planck_pos
  have h2 : Real.sqrt (1/2) + PlanckConstant < 1 + PlanckConstant := by
    linarith
  exact ne_of_gt (one_div_lt_one_div_of_lt h1 h2)

/-- C5 fails on the code: at the perfectly linear series `[100, 110, 120]`
the function returns `3/2`, not the least-squares slope `1/10` (= `0.1`)
the claim and the repository's own test expect; the loop accumulates
`x + yNorm` where the least-squares formula needs `x * yNorm`. -/
theorem calculateSlope_code_bug :
    CalculateSlope [100, 110, 120] = 3/2 ∧ (3/2 : ℚ) ≠ 1/10 := by
  constructor
  · norm_num [CalculateSlope, slopeSums]
  · norm_num

theorem getD_take (l : List InputData) (m j : ℕ) (h : j < m) :
    (l.take m).getD j dfltCandle = l.getD j dfltCandle := by
  rw [List.getD_eq_getElem?_getD, List.getD_eq_getElem?_getD,
    List.getElem?_take, if_pos h]

theorem getD_drop (l : List InputData) (a j : ℕ) :
    (l.drop a).getD j dfltCandle = l.getD (a + j) dfltCandle := by
  rw [List.getD_eq_getElem?_getD, List.getD_eq_getElem?_getD,
    List.getElem?_drop]

theorem findLabel_cons_of_eq (u : LabelUpdate) (l : List LabelUpdate)
    (c : String) (h : u.Column = c) : findLabel (u :: l) c = some u := by
  unfold findLabel
  exact List.find?_cons_of_pos _ (by simp [h])

theorem findLabel_cons_of_ne (u : LabelUpdate) (l : List LabelUpdate)
    (c : String) (h : u.Column ≠ c) : findLabel (u :: l) c = findLabel l c := by
  unfold findLabel
  exact List.find?_cons_of_neg _ (by simp [h])

theorem findLabel_ite_singleton_ne (cond : Prop) [Decidable cond]
    (u : LabelUpdate) (c : String) (h : u.Column ≠ c) :
    findLabel (if cond then [u] else []) c = none := by
  split_ifs
  · rw [findLabel_cons_of_ne _ _ _ h]; rfl
  · rfl

theorem findLabel_append_left_none (l₁ l₂ : List LabelUpdate) (c : String)
    (h : findLabel l₁ c = none) :
    findLabel (l₁ ++ l₂) c = findLabel l₂ c := by
  unfold findLabel at *
  rw [List.find?_append, h, Option.none_or]

theorem findLabel_append_right_none (l₁ l₂ : List LabelUpdate) (c : String)
    (h : findLabel l₂ c = none) :
    findLabel (l₁ ++ l₂) c = findLabel l₁ c := by
  unfold findLabel at *
  rw [List.find?_append, h, Option.or_none]

/-- `CalculateFeatures` on a history of exactly `VectorWindow + 1` candles
is defined and tagged with the last candle's time and close. -/
theorem calculateFeatures_of_length (p : PatternAI) (l : List InputData)
    (h : l.length = p.VectorWindow + 1) :
    p.CalculateFeatures l = some
      { Time := (l.getD p.VectorWindow dfltCandle).Time
        Symbol := p.Symbol
        Interval := p.Interval
        ClosePrice := (l.getD p.VectorWindow dfltCandle).Close
        Embedding := CalculateZScore (CalculateLogReturn
          ((l.map (fun d => d.Close)).map (fun c => (c : ℝ)))) } := by
  unfold PatternAI.CalculateFeatures
  simp only [h, lt_self_iff_false, if_false, Nat.sub_self, List.drop_zero,
    Nat.add_sub_cancel]

/-- Evaluation of one bulk-loop iteration at an in-range index. -/
theorem bulkRow_eval (p : PatternAI) (full : List InputData) (i : ℕ)
    (hN : p.VectorWindow ≤ i) (hi : i < full.length) :
    bulkRow p full i = some
      ⟨{ Time := (full.getD i dfltCandle).Time
         Symbol := p.Symbol
         Interval := p.Interval
         ClosePrice := (full.getD i dfltCandle).Close
         Embedding := CalculateZScore (CalculateLogReturn
           ((((full.drop (i - p.VectorWindow)).take
               (i + 1 - (i - p.VectorWindow))).map (fun d => d.Close)).map
             (fun c => (c : ℝ)))) },
       (if i + 1 < full.length then
          (if (full.getD i dfltCandle).Close ≠ 0 then
            [⟨(full.getD i dfltCandle).Time, "next_return",
              ((full.getD (i + 1) dfltCandle).Close -
                (full.getD i dfltCandle).Close) /
                (full.getD i dfltCandle).Close⟩]
           else [])
        else [])
       ++ (if i + 3 < full.length then
             [⟨(full.getD i dfltCandle).Time, "next_slope_3",
               CalculateSlope ((List.range' 1 3).map
                 (fun k => (full.getD (i + k) dfltCandle).Close))⟩]
           else [])
       ++ (if i + 5 < full.length then
             [⟨(full.getD i dfltCandle).Time, "next_slope_5",
               CalculateSlope ((List.range' 1 5).map
                 (fun k => (full.getD (i + k) dfltCandle).Close))⟩]
           else [])⟩ := by
  have hslen : ((full.drop (i - p.VectorWindow)).take
      (i + 1 - (i - p.VectorWindow))).length = p.VectorWindow + 1 := by
    rw [List.length_take, List.length_drop]
    omega
  have hgetW : ((full.drop (i - p.VectorWindow)).take
      (i + 1 - (i - p.VectorWindow))).getD p.VectorWindow dfltCandle =
      full.getD i dfltCandle := by
    rw [getD_take _ _ _ (by omega), getD_drop]
    congr 1
    omega
  unfold bulkRow
  dsimp only
  rw [calculateFeatures_of_length _ _ hslen, hgetW]

/-- Evaluation of `CalculateLabels` on a prefix `full.take m` with
`2 ≤ m ≤ full.length`, with the fixed indices rewritten to the full
history. -/
theorem calculateLabels_take_eval (p : PatternAI) (full : List InputData)
    (m : ℕ) (h2 : 2 ≤ m) (hm : m ≤ full.length) :
    p.CalculateLabels (full.take m) =
      (if (full.getD (m - 2) dfltCandle).Close ≠ 0 then
        [⟨(full.getD (m - 2) dfltCandle).Time, "next_return",
          ((full.getD (m - 1) dfltCandle).Close -
            (full.getD (m - 2) dfltCandle).Close) /
            (full.getD (m - 2) dfltCandle).Close⟩]
       else [])
      ++ (if 4 ≤ m then
            [⟨(full.getD (m - 4) dfltCandle).Time, "next_slope_3",
              CalculateSlope [(full.getD (m - 3) dfltCandle).Close,
                              (full.getD (m - 2) dfltCandle).Close,
                              (full.getD (m - 1) dfltCandle).Close]⟩]
          else [])
      ++ (if 6 ≤ m then
            [⟨(full.getD (m - 6) dfltCandle).Time, "next_slope_5",
              CalculateSlope ((List.range' (m - 5) 5).map
                (fun j => ((full.take m).getD j dfltCandle).Close))⟩]
          else []) := by
  have hlen : (full.take m).length = m := by
    rw [List.length_take]
    omega
  unfold PatternAI.CalculateLabels
  rw [hlen, if_neg (by omega)]
  rw [getD_take full m (m - 1) (by omega), getD_take full m (m - 2) (by omega),
    getD_take full m (m - 3) (by omega), getD_take full m (m - 4) (by omega),
    getD_take full m (m - 6) (by omega)]

/-- C6: every label value the bulk path attaches to row `i` (`next_return`
when `i+1` is in range, `next_slope_3` when `i+3` is, `next_slope_5` when
`i+5` is) equals the corresponding label the incremental path emits on the
prefixes ending at indices `i+1`, `i+3` and `i+5`; moreover the emitted
row is indeed an element of `CalculateBulkData`. -/
theorem bulk_labels_match_incremental (p : PatternAI) (full : List InputData)
    (i : ℕ) (hN : p.VectorWindow ≤ i) (hi : i < full.length) :
    (∀ row, bulkRow p full i = some row → row ∈ p.CalculateBulkData full) ∧
    (i + 1 < full.length →
      (bulkRow p full i).map (fun row => findLabel row.Labels "next_return") =
        some (findLabel (p.CalculateLabels (full.take (i + 2)))
          "next_return")) ∧
    (i + 3 < full.length →
      (bulkRow p full i).map (fun row => findLabel row.Labels "next_slope_3") =
        some (findLabel (p.CalculateLabels (full.take (i + 4)))
          "next_slope_3")) ∧
    (i + 5 < full.length →
      (bulkRow p full i).map (fun row => findLabel row.Labels "next_slope_5") =
        some (findLabel (p.CalculateLabels (full.take (i + 6)))
          "next_slope_5")) := by
  refine ⟨?_, ?_, ?_, ?_⟩
  · intro row hrow
    unfold PatternAI.CalculateBulkData
    rw [List.mem_filterMap]
    exact ⟨i, List.mem_range'_1.mpr ⟨hN, by omega⟩, hrow⟩
  · intro hi1
    rw [bulkRow_eval p full i hN hi, Option.map_some',
      calculateLabels_take_eval p full (i + 2) (by omega) (by omega)]
    have e2 : i + 2 - 2 = i := by omega
    have e1 : i + 2 - 1 = i + 1 := by omega
    rw [e2, e1]
    split_ifs <;> first | (exfalso; omega) | simp [findLabel]
  · intro hi3
    rw [bulkRow_eval p full i hN hi, Option.map_some',
      calculateLabels_take_eval p full (i + 4) (by omega) (by omega)]
    have e4 : i + 4 - 4 = i := by omega
    have e3 : i + 4 - 3 = i + 1 := by omega
    have e2 : i + 4 - 2 = i + 2 := by omega
    have e1 : i + 4 - 1 = i + 3 := by omega
    rw [e4, e3, e2, e1]
    have hr3 : List.range' 1 3 = [1, 2, 3] := by decide
    rw [hr3]
    split_ifs <;> first | (exfalso; omega) | simp [findLabel]
  · intro hi5
    rw [bulkRow_eval p full i hN hi, Option.map_some',
      calculateLabels_take_eval p full (i + 6) (by omega) (by omega)]
    have e5 : i + 6 - 5 = i + 1 := by omega
    have e6 : i + 6 - 6 = i := by omega
    rw [e5, e6]
    have hargs : (List.range' (i + 1) 5).map
        (fun j => ((full.take (i + 6)).getD j dfltCandle).Close) =
        (List.range' 1 5).map
          (fun k => (full.getD (i + k) dfltCandle).Close) := by
      have hshift : List.range' (i + 1) 5 =
          (List.range' 1 5).map (fun k => i + k) :=
        (List.map_add_range' i 1 5 1).symm
      rw [hshift, List.map_map]
      apply List.map_congr_left
      intro k hk
      have hk' := List.mem_range'_1.mp hk
      simp only [Function.comp_apply]
      rw [getD_take full (i + 6) (i + k) (by omega)]
    rw [hargs]
    split_ifs <;> first | (exfalso; omega) | simp [findLabel]

/-- Closed instance of C6 on the seven-candle `fullW` with window 1 at
row `i = 1`: all three label columns agree between the bulk and the
incremental path. -/
theorem bulk_labels_match_incremental_witness :
    agentSmall.VectorWindow ≤ 1 ∧ 1 < fullW.length ∧
    (bulkRow agentSmall fullW 1).map
      (fun row => findLabel row.Labels "next_return") =
      some (findLabel (agentSmall.CalculateLabels (fullW.take 3))
        "next_return") ∧
    (bulkRow agentSmall fullW 1).map
      (fun row => findLabel row.Labels "next_slope_3") =
      some (findLabel (agentSmall.CalculateLabels (fullW.take 5))
        "next_slope_3") ∧
    (bulkRow agentSmall fullW 1).map
      (fun row => findLabel row.Labels "next_slope_5") =
      some (findLabel (agentSmall.CalculateLabels (fullW.take 7))
        "next_slope_5") :=
  ⟨by decide, by decide,
   (bulk_labels_match_incremental agentSmall fullW 1 (by decide)
     (by decide)).2.1 (by decide),
   (bulk_labels_match_incremental agentSmall fullW 1 (by decide)
     (by decide)).2.2.1 (by decide),
   (bulk_labels_match_incremental agentSmall fullW 1 (by decide)
     (by decide)).2.2.2 (by decide)⟩

end TsRag
